import Mathlib

/-!
# Verification of the meta-ai logic runtime

A shallow embedding of `src/core/runtime.rs` and `src/core/dsl.rs`:
the JSON document model, the path engine (`get`/`set` with the
read-fallback and write-auto-create rules), the operation evaluator
`exec_op`, the step loop `execute`, and schema-driven output extraction.
JSON numbers are modelled as rationals: every number a `serde_json::Value`
can hold is finite, and `Number::from_f64` maps non-finite floats to
`Value::Null` (this conversion is modelled explicitly by `Json.ofXNum`).
-/

namespace MetaAI

/-- JSON values as in `serde_json::Value`.  Objects are association lists
with the map operations below; only key lookup and insertion order for a
fixed key set are observed by the runtime. -/
inductive Json where
  | null
  | bool (b : Bool)
  | num (q : ℚ)
  | str (s : String)
  | arr (xs : List Json)
  | obj (kvs : List (String × Json))

/-- `Map::get` on an object's entry list. -/
def lookupKV : List (String × Json) → String → Option Json
  | [], _ => none
  | (k, v) :: rest, key => if k = key then some v else lookupKV rest key

/-- Replace the value stored under `key`, keeping its position; identity if
`key` is absent. -/
def updateKV : List (String × Json) → String → Json → List (String × Json)
  | [], _, _ => []
  | (k, v) :: rest, key, nv =>
      if k = key then (k, nv) :: rest else (k, v) :: updateKV rest key nv

/-- `Map::insert`: replace the value if the key is present, otherwise add
the binding. -/
def insertKV (kvs : List (String × Json)) (key : String) (v : Json) :
    List (String × Json) :=
  match lookupKV kvs key with
  | some _ => updateKV kvs key v
  | none => kvs ++ [(key, v)]

/-- `str::split` on a single separator character: `"a/b" ↦ ["a","b"]`,
`"" ↦ [""]`, `"/" ↦ ["",""]`. -/
def splitCh (c : Char) : List Char → List (List Char)
  | [] => [[]]
  | a :: rest =>
      if a = c then [] :: splitCh c rest
      else
        match splitCh c rest with
        | t :: ts => (a :: t) :: ts
        | [] => [[a]]

/-- Scanner of `str::replace`: when `skip` is positive the current
character is the tail of an occurrence that was already replaced and is
consumed without being emitted; at `skip = 0` an occurrence of `pat`
starting here is replaced by `rep` and its remaining `pat.length - 1`
characters are scheduled for consumption. -/
def replaceAux (pat rep : List Char) : Nat → List Char → List Char
  | _, [] => []
  | Nat.succ k, _ :: rest => replaceAux pat rep k rest
  | 0, a :: rest =>
      if pat.isPrefixOf (a :: rest) then
        rep ++ replaceAux pat rep (pat.length - 1) rest
      else a :: replaceAux pat rep 0 rest

/-- `str::replace` of a non-empty pattern: leftmost non-overlapping
occurrences are replaced.  (All patterns used by the runtime — `~1`, `~0`
and `\x7bkey\x7d` — are non-empty, so the empty-pattern behaviour of the
Rust original is never reached.) -/
def replaceSub (pat rep s : List Char) : List Char :=
  replaceAux pat rep 0 s

/-- JSON-pointer token unescaping: `token.replace("~1", "/").replace("~0", "~")`. -/
def unescapeTok (t : List Char) : List Char :=
  replaceSub ['~', '0'] ['~'] (replaceSub ['~', '1'] ['/'] t)

/-- `serde_json`'s `parse_index`: rejects a leading `+` and leading zeros,
then parses the decimal digits.  (A value overflowing `usize` makes the
Rust parse fail; here it yields a `Nat` that exceeds every array length,
which is indistinguishable through `pointer`.) -/
def parseIndex (s : List Char) : Option Nat :=
  if s.head? = some '+' ∨ (s.head? = some '0' ∧ s.length ≠ 1) then none
  else if s ≠ [] ∧ s.all Char.isDigit then
    some (s.foldl (fun n c => n * 10 + (c.toNat - 48)) 0)
  else none

/-- The reference tokens of a pointer path: `""` has none, a path starting
with `/` splits on `/` (dropping the leading empty part) with each token
unescaped, and any other string is not a valid pointer. -/
def ptrTokens (path : String) : Option (List String) :=
  match path.data with
  | [] => some []
  | c :: _ =>
      if c = '/' then
        some (((splitCh '/' path.data).drop 1).map fun t => String.mk (unescapeTok t))
      else none

/-- The token-walking loop of `Value::pointer`. -/
def resolveTokens (d : Json) : List String → Option Json
  | [] => some d
  | t :: ts =>
      match d with
      | Json.obj kvs =>
          match lookupKV kvs t with
          | some v => resolveTokens v ts
          | none => none
      | Json.arr xs =>
          match parseIndex t.data with
          | some i =>
              match xs[i]? with
              | some v => resolveTokens v ts
              | none => none
          | none => none
      | _ => none

/-- `Value::pointer`. -/
def Json.pointer (j : Json) (path : String) : Option Json :=
  (ptrTokens path).bind fun ts => resolveTokens j ts

/-- The token-walking loop of `Value::pointer_mut`, returning the document
with the addressed location replaced by `v` (or `none` when the path does
not resolve). -/
def setTokens (d : Json) : List String → Json → Option Json
  | [], v => some v
  | t :: ts, v =>
      match d with
      | Json.obj kvs =>
          match lookupKV kvs t with
          | some child => (setTokens child ts v).map fun c => Json.obj (updateKV kvs t c)
          | none => none
      | Json.arr xs =>
          match parseIndex t.data with
          | some i =>
              match xs[i]? with
              | some child => (setTokens child ts v).map fun c => Json.arr (xs.set i c)
              | none => none
          | none => none
      | _ => none

/-- In-place replacement through `pointer_mut`. -/
def Json.setPointer (j : Json) (path : String) (v : Json) : Option Json :=
  (ptrTokens path).bind fun ts => setTokens j ts v

/-- The information content of the `MetaError::RuntimeError` messages the
runtime produces; each variant corresponds to one distinct format string
in `runtime.rs`. -/
inductive MetaError where
  | pointerNotFound (path : String) (rootKeys : List String)
      (inputKeys : Option (List String))
  | cannotSetPath (path : String)
  | divisionByZero
  | notANumber (path : String)
  | notAnArray (path : String)
  deriving DecidableEq

/-- `RuntimeState` from `runtime.rs`. -/
structure RuntimeState where
  data : Json

/-- `RuntimeState::new`: the document `{"inputs": inputs, "temp": {}}`. -/
def RuntimeState.new (inputs : Json) : RuntimeState :=
  ⟨Json.obj [("inputs", inputs), ("temp", Json.obj [])]⟩

/-- `available_roots`: the document's root keys (empty for a non-object root). -/
def rootKeysOf (d : Json) : List String :=
  match d with
  | Json.obj kvs => kvs.map Prod.fst
  | _ => []

/-- `input_keys`: the keys of the `inputs` section, when it is an object. -/
def inputKeysOf (d : Json) : Option (List String) :=
  (d.pointer "/inputs").bind fun v =>
    match v with
    | Json.obj kvs => some (kvs.map Prod.fst)
    | _ => none

/-- `str::starts_with('/')`. -/
def startsSlash (path : String) : Bool :=
  match path.data with
  | c :: _ => c = '/'
  | [] => false

/-- `RuntimeState::get`: exact pointer lookup, then — for paths starting
with `/` — retry under `/inputs`, else a `pointerNotFound` error carrying
the root keys and (if the `inputs` section is an object) its keys. -/
def RuntimeState.get (s : RuntimeState) (path : String) : Except MetaError Json :=
  match s.data.pointer path with
  | some v => .ok v
  | none =>
      if startsSlash path then
        match s.data.pointer ("/inputs" ++ path) with
        | some v => .ok v
        | none =>
            .error (.pointerNotFound path (rootKeysOf s.data) (inputKeysOf s.data))
      else .error (.pointerNotFound path (rootKeysOf s.data) (inputKeysOf s.data))

/-- `RuntimeState::set`: replace in place when the path resolves; otherwise
split the raw path on `/` and apply the shallow auto-create rules (a
two-part split inserts a root key, a three-part split inserts into a
section object, creating it when absent); everything else is a
`cannotSetPath` error. -/
def RuntimeState.set (s : RuntimeState) (path : String) (v : Json) :
    Except MetaError RuntimeState :=
  match s.data.setPointer path v with
  | some d => .ok ⟨d⟩
  | none =>
      match splitCh '/' path.data with
      | [_, k] =>
          if k ≠ [] then
            match s.data with
            | Json.obj kvs => .ok ⟨Json.obj (insertKV kvs (String.mk k) v)⟩
            | _ => .error (.cannotSetPath path)
          else .error (.cannotSetPath path)
      | [_, sec, k] =>
          match s.data with
          | Json.obj kvs =>
              match lookupKV kvs (String.mk sec) with
              | none =>
                  .ok ⟨Json.obj (insertKV kvs (String.mk sec)
                        (Json.obj [(String.mk k, v)]))⟩
              | some (Json.obj skvs) =>
                  .ok ⟨Json.obj (updateKV kvs (String.mk sec)
                        (Json.obj (insertKV skvs (String.mk k) v)))⟩
              | some _ => .error (.cannotSetPath path)
          | _ => .error (.cannotSetPath path)
      | _ => .error (.cannotSetPath path)

/-! ## The program model (`dsl.rs`) -/

/-- `ConstantValue`. -/
inductive ConstantValue where
  | string (s : String)
  | number (n : ℚ)
  | bool (b : Bool)
  | null

/-- `MathOp`. -/
inductive MathOp where
  | add | subtract | multiply | divide
  deriving DecidableEq

/-- `CmpOp`. -/
inductive CmpOp where
  | gt | lt | eq | gte | lte
  deriving DecidableEq

/-- `FormatVariable`. -/
structure FormatVariable where
  key : String
  path : String

/-- `LogicOp`. -/
inductive LogicOp where
  | get (path : String)
  | constant (value : ConstantValue)
  | pluck (path : String) (key : String)
  | add (a b : String)
  | subtract (a b : String)
  | multiply (a b : String)
  | divide (a b : String)
  | calculate (list_path output_field : String) (operator : MathOp)
      (a_field b_field : String)
  | sum (list_path : String) (field : Option String)
  | count (list_path : String)
  | min (list_path : String) (field : Option String)
  | max (list_path : String) (field : Option String)
  | filterNumeric (list_path : String) (field : Option String)
      (operator : CmpOp) (value : ℚ)
  | sort (list_path : String) (field : String) (descending : Bool)
  -- the source field is `variables`, a reserved word in Lean
  | formatString (template : String) (vars : List FormatVariable)

/-- `LogicStep`. -/
structure LogicStep where
  id : String
  description : String
  operation : LogicOp
  output_path : String

/-- `AppDefinition`; the two schemas are arbitrary JSON values. -/
structure AppDefinition where
  name : String
  description : String
  input_schema : Json
  output_schema : Json

/-- `AppProgram`. -/
structure AppProgram where
  definition : AppDefinition
  steps : List LogicStep

/-! ## The evaluator (`runtime.rs`) -/

/-- `Value::as_f64`. -/
def Json.asNum : Json → Option ℚ
  | Json.num q => some q
  | _ => none

/-- `Value::get(&str)`: member lookup on objects, `none` elsewhere. -/
def Json.getKey : Json → String → Option Json
  | Json.obj kvs, k => lookupKV kvs k
  | _, _ => none

/-- The helper `get_f64`. -/
def get_f64 (s : RuntimeState) (path : String) : Except MetaError ℚ :=
  match s.get path with
  | .error e => .error e
  | .ok v =>
      match v.asNum with
      | some q => .ok q
      | none => .error (.notANumber path)

/-- The helper `get_array`. -/
def get_array (s : RuntimeState) (path : String) : Except MetaError (List Json) :=
  match s.get path with
  | .error e => .error e
  | .ok (Json.arr xs) => .ok xs
  | .ok _ => .error (.notAnArray path)

/-- The value space of the Min/Max folds: the finite numbers the array can
contribute together with the two infinite identities `f64::INFINITY` and
`f64::NEG_INFINITY`. -/
inductive XNum where
  | fin (q : ℚ)
  | posInf
  | negInf
  deriving DecidableEq

/-- `f64::min` on the values reachable by the Min fold. -/
def XNum.minStep : XNum → ℚ → XNum
  | XNum.fin p, q => XNum.fin (Min.min p q)
  | XNum.posInf, q => XNum.fin q
  | XNum.negInf, _ => XNum.negInf

/-- `f64::max` on the values reachable by the Max fold. -/
def XNum.maxStep : XNum → ℚ → XNum
  | XNum.fin p, q => XNum.fin (Max.max p q)
  | XNum.negInf, q => XNum.fin q
  | XNum.posInf, _ => XNum.posInf

/-- `json!` applied to the result of a Min/Max fold: `Number::from_f64`
represents a finite value as a number and an infinite one as `Null`. -/
def Json.ofXNum : XNum → Json
  | XNum.fin q => Json.num q
  | _ => Json.null

/-- `item.get(f).and_then(as_f64)` when a field is named, else `item.as_f64()` —
the element selector shared by Sum, Min, Max and FilterNumeric. -/
def fieldNum (field : Option String) (item : Json) : Option ℚ :=
  match field with
  | some f => (item.getKey f).bind Json.asNum
  | none => item.asNum

/-- Calculate's `resolve_operand`: a target starting with `/` is read from
the state (0 when unresolved or non-numeric), anything else is a property
of the current element (0 when missing or non-numeric). -/
def resolveOperand (s : RuntimeState) (kvs : List (String × Json))
    (target : String) : ℚ :=
  if startsSlash target then
    match s.get target with
    | .ok v => (v.asNum).getD 0
    | .error _ => 0
  else ((lookupKV kvs target).bind Json.asNum).getD 0

/-- Calculate's per-element arithmetic; division by zero degrades to 0. -/
def mathOpApply (op : MathOp) (v1 v2 : ℚ) : ℚ :=
  match op with
  | .add => v1 + v2
  | .subtract => v1 - v2
  | .multiply => v1 * v2
  | .divide => if v2 ≠ 0 then v1 / v2 else 0

/-- Calculate's loop body: object elements get `output_field` inserted,
other elements pass through unchanged. -/
def calcElem (s : RuntimeState) (output_field : String) (op : MathOp)
    (a_field b_field : String) (item : Json) : Json :=
  match item with
  | Json.obj kvs =>
      Json.obj (insertKV kvs output_field (Json.num
        (mathOpApply op (resolveOperand s kvs a_field) (resolveOperand s kvs b_field))))
  | other => other

/-- `f64::EPSILON`, the tolerance of FilterNumeric's equality test. -/
def eps64 : ℚ := 1 / 2 ^ 52

/-- FilterNumeric's comparison. -/
def cmpApply (op : CmpOp) (v threshold : ℚ) : Bool :=
  match op with
  | .gt => decide (v > threshold)
  | .lt => decide (v < threshold)
  | .eq => decide (|v - threshold| < eps64)
  | .gte => decide (v ≥ threshold)
  | .lte => decide (v ≤ threshold)

/-- Sort's key: the named field's numeric value, 0 when missing or
non-numeric. -/
def sortKey (field : String) (item : Json) : ℚ :=
  ((item.getKey field).bind Json.asNum).getD 0

/-- Textual form of a JSON number.  The runtime stores numbers as `f64`
(integer-tagged numbers only enter through caller inputs), whose
`to_string` is the shortest decimal that round-trips — a notion tied to
binary floating point that this embedding does not model; integral values
are rendered exactly as the runtime would render the corresponding
integer-tagged number. -/
def renderNum (q : ℚ) : String :=
  if q.den = 1 then toString q.num else toString q

def lbrace : Char := Char.ofNat 123

def rbrace : Char := Char.ofNat 125

/-- One character of a JSON string, escaped as `serde_json` writes it. -/
def escChar (c : Char) : String :=
  if c = Char.ofNat 34 then String.mk [Char.ofNat 92, Char.ofNat 34]
  else if c = Char.ofNat 92 then String.mk [Char.ofNat 92, Char.ofNat 92]
  else if c = Char.ofNat 8 then String.mk [Char.ofNat 92, 'b']
  else if c = Char.ofNat 12 then String.mk [Char.ofNat 92, 'f']
  else if c = Char.ofNat 10 then String.mk [Char.ofNat 92, 'n']
  else if c = Char.ofNat 13 then String.mk [Char.ofNat 92, 'r']
  else if c = Char.ofNat 9 then String.mk [Char.ofNat 92, 't']
  else if c.toNat < 32 then
    String.mk [Char.ofNat 92, 'u', '0', '0',
      (if c.toNat / 16 < 10 then Char.ofNat (48 + c.toNat / 16)
       else Char.ofNat (87 + c.toNat / 16)),
      (if c.toNat % 16 < 10 then Char.ofNat (48 + c.toNat % 16)
       else Char.ofNat (87 + c.toNat % 16))]
  else String.singleton c

def joinComma : List String → String
  | [] => ""
  | [s] => s
  | s :: rest => s ++ "," ++ joinComma rest

/-- `Value`'s `Display`: the compact JSON serialization. -/
def Json.compact : Json → String
  | Json.null => "null"
  | Json.bool true => "true"
  | Json.bool false => "false"
  | Json.num q => renderNum q
  | Json.str s =>
      String.mk [Char.ofNat 34] ++ String.join (s.data.map escChar)
        ++ String.mk [Char.ofNat 34]
  | Json.arr xs =>
      "[" ++ joinComma (xs.attach.map fun x => x.1.compact) ++ "]"
  | Json.obj kvs =>
      String.singleton lbrace
        ++ joinComma (kvs.attach.map fun kv =>
              String.mk [Char.ofNat 34] ++ String.join (kv.1.1.data.map escChar)
                ++ String.mk [Char.ofNat 34, ':'] ++ kv.1.2.compact)
        ++ String.singleton rbrace
decreasing_by
  all_goals
    first
    | (have h0 := List.sizeOf_lt_of_mem x.2
       simp only [Json.arr.sizeOf_spec]
       omega)
    | (have h1 := List.sizeOf_lt_of_mem kv.2
       have h2 : sizeOf kv.1.2 < sizeOf kv.1 := by
         obtain ⟨k, v⟩ := kv.1
         simp only [Prod.mk.sizeOf_spec]
         omega
       simp only [Json.obj.sizeOf_spec]
       omega)

/-- FormatString's rendering of a resolved value: strings verbatim,
numbers and booleans via `to_string`, everything else via `Display`. -/
def renderValue : Json → String
  | Json.str s => s
  | Json.num q => renderNum q
  | Json.bool b => if b then "true" else "false"
  | v => v.compact

/-- `format!("\x7b\x7b\x7b\x7d\x7d\x7d", var.key)`: the literal placeholder
text of a variable. -/
def placeholder (key : String) : List Char :=
  lbrace :: key.data ++ [rbrace]

/-- FormatString's loop body: a resolved variable replaces every literal
occurrence of its placeholder in the working string; an unresolved one
leaves the string unchanged. -/
def applyVar (s : RuntimeState) (result : String) (var : FormatVariable) : String :=
  match s.get var.path with
  | .ok val =>
      String.mk (replaceSub (placeholder var.key) (renderValue val).data result.data)
  | .error _ => result

/-- `Runtime::exec_op`: evaluates one operation against the state.  The
state is taken by shared reference in the source and never modified. -/
def Runtime.exec_op (op : LogicOp) (s : RuntimeState) : Except MetaError Json :=
  match op with
  | .get path => s.get path
  | .constant v =>
      .ok (match v with
        | ConstantValue.string str => Json.str str
        | ConstantValue.number n => Json.num n
        | ConstantValue.bool b => Json.bool b
        | ConstantValue.null => Json.null)
  | .add a b =>
      match get_f64 s a with
      | .error e => .error e
      | .ok va =>
          match get_f64 s b with
          | .error e => .error e
          | .ok vb => .ok (Json.num (va + vb))
  | .subtract a b =>
      match get_f64 s a with
      | .error e => .error e
      | .ok va =>
          match get_f64 s b with
          | .error e => .error e
          | .ok vb => .ok (Json.num (va - vb))
  | .multiply a b =>
      match get_f64 s a with
      | .error e => .error e
      | .ok va =>
          match get_f64 s b with
          | .error e => .error e
          | .ok vb => .ok (Json.num (va * vb))
  | .divide a b =>
      match get_f64 s b with
      | .error e => .error e
      | .ok vb =>
          if vb = 0 then .error .divisionByZero
          else
            match get_f64 s a with
            | .error e => .error e
            | .ok va => .ok (Json.num (va / vb))
  | .calculate lp outf oper af bf =>
      match get_array s lp with
      | .error e => .error e
      | .ok arr => .ok (Json.arr (arr.map (calcElem s outf oper af bf)))
  | .sum lp field =>
      match get_array s lp with
      | .error e => .error e
      | .ok arr => .ok (Json.num ((arr.filterMap (fieldNum field)).foldl (· + ·) 0))
  | .count lp =>
      match get_array s lp with
      | .error e => .error e
      | .ok arr => .ok (Json.num arr.length)
  | .min lp field =>
      match get_array s lp with
      | .error e => .error e
      | .ok arr =>
          .ok (Json.ofXNum ((arr.filterMap (fieldNum field)).foldl XNum.minStep XNum.posInf))
  | .max lp field =>
      match get_array s lp with
      | .error e => .error e
      | .ok arr =>
          .ok (Json.ofXNum ((arr.filterMap (fieldNum field)).foldl XNum.maxStep XNum.negInf))
  | .pluck path key =>
      match get_array s path with
      | .error e => .error e
      | .ok arr => .ok (Json.arr (arr.map fun item => (item.getKey key).getD Json.null))
  | .sort lp field desc =>
      match get_array s lp with
      | .error e => .error e
      | .ok arr =>
          -- `slice::sort_by` is a stable sort; for the total preorder induced
          -- by `sortKey` (the comparator's `partial_cmp` never falls back to
          -- `Equal`) the stable-sorted list is unique, and `List.mergeSort`
          -- is such a stable sort.
          let sorted := arr.mergeSort fun a b =>
            decide (sortKey field a ≤ sortKey field b)
          .ok (Json.arr (if desc then sorted.reverse else sorted))
  | .filterNumeric lp field oper value =>
      match get_array s lp with
      | .error e => .error e
      | .ok arr =>
          .ok (Json.arr (arr.filter fun item =>
            match fieldNum field item with
            | some v => cmpApply oper v value
            | none => false))
  | .formatString template vars =>
      .ok (Json.str (vars.foldl (applyVar s) template))

/-- The body of `execute`'s step loop: evaluate the operation, then write
the result to the step's output path. -/
def Runtime.runStep (st : LogicStep) (s : RuntimeState) :
    Except MetaError RuntimeState :=
  match Runtime.exec_op st.operation s with
  | .error e => .error e
  | .ok result => s.set st.output_path result

/-- `execute`'s step loop over a step list. -/
def Runtime.runSteps : List LogicStep → RuntimeState → Except MetaError RuntimeState
  | [], s => .ok s
  | st :: rest, s =>
      match Runtime.runStep st s with
      | .error e => .error e
      | .ok s2 => Runtime.runSteps rest s2

/-- The loop of `execute`'s output extraction: for each property name of
the output schema, look it up first as a root key of the document
(`state.data.get(key)`), then as the root-level pointer `/name`; collect
every match into `structured_output`. -/
def matchedEntries (props : List (String × Json)) (d : Json) :
    List (String × Json) :=
  props.foldl (fun acc kv =>
    match d.getKey kv.1 with
    | some val => insertKV acc kv.1 val
    | none =>
        match d.pointer ("/" ++ kv.1) with
        | some val => insertKV acc kv.1 val
        | none => acc) []

/-- `execute`'s output extraction: the collected matches when at least one
property name matched, else the whole working document. -/
def extractOutput (output_schema : Json) (d : Json) : Json :=
  match output_schema.getKey "properties" with
  | some (Json.obj props) =>
      if (matchedEntries props d).isEmpty then d
      else Json.obj (matchedEntries props d)
  | _ => d

/-- `Runtime::execute`. -/
def Runtime.execute (program : AppProgram) (inputs : Json) : Except MetaError Json :=
  match Runtime.runSteps program.steps (RuntimeState.new inputs) with
  | .error e => .error e
  | .ok s => .ok (extractOutput program.definition.output_schema s.data)

/-! ## Claim-side definitions

These follow the spec's words (for refinement-style claims) rather than
the source; each is compared with the corresponding source definition in
a theorem below. -/

/-- C1's resolution order as the spec states it: (a) the path against the
whole document exactly; (b) if absent and the path is non-empty, the same
path resolved under the `inputs` section. -/
def specResolve (d : Json) (path : String) : Option Json :=
  match d.pointer path with
  | some v => some v
  | none =>
      if path = "" then none
      else (d.pointer "/inputs").bind fun inp => inp.pointer path

/-- C1's `get` as the spec states it: `specResolve`, or PathNotFound
carrying the document's root keys and, when `inputs` is an object, its
keys. -/
def specGet (d : Json) (path : String) : Except MetaError Json :=
  match specResolve d path with
  | some v => .ok v
  | none => .error (.pointerNotFound path (rootKeysOf d) (inputKeysOf d))

/-- A key that a single pointer token can address verbatim: it contains no
separator and no escape sequence. -/
def tokenClean (x : String) : Prop :=
  '/' ∉ x.data ∧ ¬ ['~', '1'] <:+: x.data ∧ ¬ ['~', '0'] <:+: x.data

instance (x : String) : Decidable (tokenClean x) := by
  unfold tokenClean
  infer_instance

/-! ## Path-engine lemmas -/

theorem splitCh_cons_self (c : Char) (rest : List Char) :
    splitCh c (c :: rest) = [] :: splitCh c rest := by
  simp [splitCh]

theorem splitCh_of_not_mem {c : Char} {s : List Char} (h : c ∉ s) :
    splitCh c s = [s] := by
  induction s with
  | nil => rfl
  | cons a rest ih =>
      have hac : ¬ a = c := fun e => h (e ▸ List.mem_cons_self a rest)
      have hr : c ∉ rest := fun m => h (List.mem_cons_of_mem _ m)
      simp [splitCh, hac, ih hr]

theorem splitCh_append_of_not_mem {c : Char} {pre : List Char} (h : c ∉ pre)
    (rest : List Char) :
    splitCh c (pre ++ c :: rest) = pre :: splitCh c rest := by
  induction pre with
  | nil => simpa using splitCh_cons_self c rest
  | cons a pre ih =>
      have hac : ¬ a = c := fun e => h (e ▸ List.mem_cons_self a pre)
      have hp : c ∉ pre := fun m => h (List.mem_cons_of_mem _ m)
      simp [splitCh, hac, ih hp]

theorem replaceSub_of_no_occurrence {pat rep : List Char} :
    ∀ {s : List Char}, ¬ pat <:+: s → replaceSub pat rep s = s := by
  intro s
  induction s with
  | nil => intro _; rfl
  | cons a rest ih =>
      intro h
      have hpre : pat.isPrefixOf (a :: rest) = false := by
        rw [Bool.eq_false_iff]
        intro hb
        exact h (List.IsPrefix.isInfix (List.isPrefixOf_iff_prefix.mp hb))
      have hrest : ¬ pat <:+: rest := fun hi => h (List.infix_cons hi)
      unfold replaceSub replaceAux
      rw [hpre]
      simpa [replaceSub] using ih hrest

theorem unescapeTok_of_clean {x : String} (h : tokenClean x) :
    unescapeTok x.data = x.data := by
  unfold unescapeTok
  rw [replaceSub_of_no_occurrence h.2.1, replaceSub_of_no_occurrence h.2.2]

theorem ptrTokens_of_data_nil {path : String} (h : path.data = []) :
    ptrTokens path = some [] := by
  unfold ptrTokens
  rw [h]

theorem pointer_of_data_nil {path : String} (h : path.data = []) (d : Json) :
    d.pointer path = some d := by
  unfold Json.pointer
  rw [ptrTokens_of_data_nil h]
  simp [resolveTokens]

theorem ptrTokens_slash {path : String} {rest : List Char}
    (h : path.data = '/' :: rest) :
    ptrTokens path =
      some ((splitCh '/' rest).map fun t => String.mk (unescapeTok t)) := by
  unfold ptrTokens
  rw [h]
  simp [splitCh_cons_self]

theorem ptrTokens_of_not_slash {path : String} {c : Char} {rest : List Char}
    (h : path.data = c :: rest) (hc : c ≠ '/') :
    ptrTokens path = none := by
  unfold ptrTokens
  rw [h]
  simp [hc]

theorem resolveTokens_cons (d : Json) (t : String) (ts : List String) :
    resolveTokens d (t :: ts) =
      (resolveTokens d [t]).bind fun v => resolveTokens v ts := by
  cases d with
  | obj kvs => cases h : lookupKV kvs t <;> simp [resolveTokens, h]
  | arr xs =>
      cases h : parseIndex t.data with
      | none => simp [resolveTokens, h]
      | some i => cases h2 : xs[i]? <;> simp [resolveTokens, h, h2]
  | null => simp [resolveTokens]
  | bool b => simp [resolveTokens]
  | num q => simp [resolveTokens]
  | str s => simp [resolveTokens]

theorem pointer_append_inputs (d : Json) {path : String} {rest : List Char}
    (h : path.data = '/' :: rest) :
    d.pointer ("/inputs" ++ path) =
      (d.pointer "/inputs").bind fun inp => inp.pointer path := by
  have hdata : ("/inputs" ++ path).data = '/' :: ("inputs".data ++ '/' :: rest) := by
    rw [String.data_append, h]
    rfl
  have hsplit : splitCh '/' ("inputs".data ++ '/' :: rest) =
      "inputs".data :: splitCh '/' rest :=
    splitCh_append_of_not_mem (by decide) rest
  have htok : ptrTokens ("/inputs" ++ path) =
      some ("inputs" :: (splitCh '/' rest).map fun t => String.mk (unescapeTok t)) := by
    rw [ptrTokens_slash hdata, hsplit]
    rfl
  unfold Json.pointer
  rw [htok, ptrTokens_slash h]
  simp only [Option.some_bind]
  rw [resolveTokens_cons]
  have hone : resolveTokens d ["inputs"] = d.pointer "/inputs" := rfl
  rw [hone]
  rfl

theorem strEta (x : String) : String.mk x.data = x := by
  cases x
  rfl

theorem startsSlash_of_data {path : String} {rest : List Char}
    (h : path.data = '/' :: rest) : startsSlash path = true := by
  unfold startsSlash
  rw [h]
  simp

theorem not_empty_of_data_cons {path : String} {c : Char} {rest : List Char}
    (h : path.data = c :: rest) : ¬ path = "" := by
  intro e
  subst e
  exact List.noConfusion h

/-- The code's `get` computes exactly the spec's resolution order. -/
theorem get_eq_specGet (s : RuntimeState) (path : String) :
    s.get path = specGet s.data path := by
  unfold RuntimeState.get specGet specResolve
  cases hp : s.data.pointer path with
  | some v => simp
  | none =>
      cases hd : path.data with
      | nil => simp [pointer_of_data_nil hd] at hp
      | cons c rest =>
          have hne : ¬ path = "" := not_empty_of_data_cons hd
          by_cases hc : c = '/'
          · subst hc
            rw [startsSlash_of_data hd, pointer_append_inputs s.data hd]
            cases hin : s.data.pointer "/inputs" with
            | none => simp [hne]
            | some inp =>
                cases hip : inp.pointer path with
                | none => simp [hne, hip]
                | some v => simp [hne, hip]
          · have hsl : startsSlash path = false := by
              unfold startsSlash
              rw [hd]
              simp [hc]
            have hfp : ∀ e : Json, e.pointer path = none := fun e => by
              unfold Json.pointer
              rw [ptrTokens_of_not_slash hd hc]
              rfl
            simp [hsl, hne, hfp]

/-- During any run that has not overwritten root key `x`, an input field is
readable at `/inputs/x` and at `/x` with the same result. -/
theorem get_input_root_coincide (s : RuntimeState)
    (kvs ikvs : List (String × Json)) (x : String) (v : Json)
    (hroot : s.data = Json.obj kvs)
    (hin : lookupKV kvs "inputs" = some (Json.obj ikvs))
    (hx : lookupKV ikvs x = some v)
    (hnx : lookupKV kvs x = none)
    (hclean : tokenClean x) :
    s.get ("/inputs/" ++ x) = .ok v ∧ s.get ("/" ++ x) = .ok v := by
  have hxd : ("/" ++ x).data = '/' :: x.data := by
    rw [String.data_append]
    rfl
  have htok1 : ptrTokens ("/" ++ x) = some [x] := by
    rw [ptrTokens_slash hxd, splitCh_of_not_mem hclean.1]
    simp [unescapeTok_of_clean hclean, strEta]
  have hxd2 : ("/inputs/" ++ x).data = '/' :: ("inputs".data ++ '/' :: x.data) := by
    rw [String.data_append]
    rfl
  have htok2 : ptrTokens ("/inputs/" ++ x) = some ["inputs", x] := by
    rw [ptrTokens_slash hxd2, splitCh_append_of_not_mem (by decide),
      splitCh_of_not_mem hclean.1]
    simp [unescapeTok_of_clean hclean, strEta]
    rfl
  constructor
  · unfold RuntimeState.get
    have hp : s.data.pointer ("/inputs/" ++ x) = some v := by
      unfold Json.pointer
      rw [htok2, hroot]
      simp [resolveTokens, hin, hx]
    rw [hp]
  · unfold RuntimeState.get
    have hp : s.data.pointer ("/" ++ x) = none := by
      unfold Json.pointer
      rw [htok1, hroot]
      simp [resolveTokens, hnx]
    rw [hp, startsSlash_of_data hxd, pointer_append_inputs s.data hxd]
    have hinp : s.data.pointer "/inputs" = some (Json.obj ikvs) := by
      unfold Json.pointer
      rw [hroot, show ptrTokens "/inputs" = some ["inputs"] from rfl]
      simp [resolveTokens, hin]
    have hvx : (Json.obj ikvs).pointer ("/" ++ x) = some v := by
      unfold Json.pointer
      rw [htok1]
      simp [resolveTokens, hx]
    rw [hinp]
    simp [hvx]

theorem lookupKV_insertKV_self (kvs : List (String × Json)) (k : String) (v : Json) :
    lookupKV (insertKV kvs k v) k = some v := by
  unfold insertKV
  cases h : lookupKV kvs k with
  | none =>
      induction kvs with
      | nil => simp [lookupKV]
      | cons kv rest ih =>
          by_cases hk : kv.1 = k
          · simp [lookupKV, hk] at h
          · simp [lookupKV, hk] at h ⊢
            exact ih h
  | some w =>
      induction kvs with
      | nil => simp [lookupKV] at h
      | cons kv rest ih =>
          by_cases hk : kv.1 = k
          · obtain ⟨k1, v1⟩ := kv
            simp at hk
            subst hk
            simp [lookupKV, updateKV]
          · obtain ⟨k1, v1⟩ := kv
            simp at hk
            simp [lookupKV, hk] at h
            simp [lookupKV, updateKV, hk]
            exact ih h

theorem resolveTokens_nil (d : Json) : resolveTokens d [] = some d := by
  cases d <;> rfl

theorem setTokens_nil (d v : Json) : setTokens d [] v = some v := by
  cases d <;> rfl

theorem setTokens_resolves {d : Json} {ts : List String} {w : Json}
    (h : resolveTokens d ts = some w) (v : Json) :
    ∃ d', setTokens d ts v = some d' ∧ resolveTokens d' ts = some v := by
  induction ts generalizing d w with
  | nil => exact ⟨v, setTokens_nil d v, resolveTokens_nil v⟩
  | cons t ts ih =>
      cases d with
      | obj kvs =>
          cases hl : lookupKV kvs t with
          | none => simp [resolveTokens, hl] at h
          | some child =>
              simp only [resolveTokens, hl] at h
              obtain ⟨c', hset, hres⟩ := ih h
              refine ⟨Json.obj (updateKV kvs t c'), ?_, ?_⟩
              · simp [setTokens, hl, hset]
              · have : lookupKV (updateKV kvs t c') t = some c' := by
                  induction kvs with
                  | nil => simp [lookupKV] at hl
                  | cons kv rest ih2 =>
                      by_cases hk : kv.1 = t
                      · obtain ⟨k1, v1⟩ := kv
                        simp at hk
                        subst hk
                        simp [lookupKV, updateKV]
                      · obtain ⟨k1, v1⟩ := kv
                        simp at hk
                        simp [lookupKV, hk] at hl
                        simp [lookupKV, updateKV, hk]
                        exact ih2 hl
                simp [resolveTokens, this, hres]
      | arr xs =>
          cases hi : parseIndex t.data with
          | none => simp [resolveTokens, hi] at h
          | some i =>
              cases hx : xs[i]? with
              | none => simp [resolveTokens, hi, hx] at h
              | some child =>
                  simp only [resolveTokens, hi, hx] at h
                  obtain ⟨c', hset, hres⟩ := ih h
                  refine ⟨Json.arr (xs.set i c'), ?_, ?_⟩
                  · simp [setTokens, hi, hx, hset]
                  · have hlt : i < xs.length := by
                      have := List.getElem?_eq_some.mp hx
                      exact this.1
                    have : (xs.set i c')[i]? = some c' := by
                      rw [List.getElem?_set]
                      simp [hlt]
                    simp [resolveTokens, hi, this, hres]
      | null => simp [resolveTokens] at h
      | bool b => simp [resolveTokens] at h
      | num q => simp [resolveTokens] at h
      | str s => simp [resolveTokens] at h

theorem lookupKV_updateKV_self {kvs : List (String × Json)} {k : String} {w : Json}
    (h : lookupKV kvs k = some w) (v : Json) :
    lookupKV (updateKV kvs k v) k = some v := by
  induction kvs with
  | nil => simp [lookupKV] at h
  | cons kv rest ih =>
      by_cases hk : kv.1 = k
      · obtain ⟨k1, v1⟩ := kv
        simp at hk
        subst hk
        simp [lookupKV, updateKV]
      · obtain ⟨k1, v1⟩ := kv
        simp at hk
        simp [lookupKV, hk] at h
        simp [lookupKV, updateKV, hk]
        exact ih h

theorem set_empty (s : RuntimeState) (v : Json) : s.set "" v = .ok ⟨v⟩ := by
  unfold RuntimeState.set Json.setPointer
  rw [ptrTokens_of_data_nil rfl]
  simp [setTokens_nil]

theorem set_of_resolvable (s : RuntimeState) (path : String) (w v : Json)
    (h : s.data.pointer path = some w) :
    ∃ d', s.set path v = .ok ⟨d'⟩ ∧ d'.pointer path = some v := by
  unfold Json.pointer at h
  cases ht : ptrTokens path with
  | none => rw [ht] at h; simp at h
  | some ts =>
      rw [ht] at h
      simp only [Option.some_bind] at h
      obtain ⟨d', hset, hres⟩ := setTokens_resolves h v
      refine ⟨d', ?_, ?_⟩
      · unfold RuntimeState.set Json.setPointer
        rw [ht]
        simp [hset]
      · unfold Json.pointer
        rw [ht]
        simp [hres]

theorem set_fresh_single (s : RuntimeState) (kvs : List (String × Json))
    (path : String) (v : Json) (seg : List Char)
    (hroot : s.data = Json.obj kvs)
    (hun : s.data.setPointer path v = none)
    (hd : path.data = '/' :: seg) (hseg : '/' ∉ seg) (hne : seg ≠ []) :
    s.set path v = .ok ⟨Json.obj (insertKV kvs (String.mk seg) v)⟩ ∧
    (Json.obj (insertKV kvs (String.mk seg) v)).getKey (String.mk seg) = some v := by
  have hsplit : splitCh '/' path.data = [[], seg] := by
    rw [hd, splitCh_cons_self, splitCh_of_not_mem hseg]
  refine ⟨?_, by simp [Json.getKey, lookupKV_insertKV_self]⟩
  unfold RuntimeState.set
  rw [hun, hsplit, hroot]
  simp [hne]

theorem set_fresh_two_create (s : RuntimeState) (kvs : List (String × Json))
    (path : String) (v : Json) (seg1 seg2 : List Char)
    (hroot : s.data = Json.obj kvs)
    (hun : s.data.setPointer path v = none)
    (hd : path.data = '/' :: (seg1 ++ '/' :: seg2))
    (h1 : '/' ∉ seg1) (h2 : '/' ∉ seg2)
    (habs : lookupKV kvs (String.mk seg1) = none) :
    s.set path v
        = .ok ⟨Json.obj (insertKV kvs (String.mk seg1)
            (Json.obj [(String.mk seg2, v)]))⟩ ∧
    (Json.obj (insertKV kvs (String.mk seg1) (Json.obj [(String.mk seg2, v)]))).getKey
        (String.mk seg1) = some (Json.obj [(String.mk seg2, v)]) := by
  have hsplit : splitCh '/' path.data = [[], seg1, seg2] := by
    rw [hd, splitCh_cons_self, splitCh_append_of_not_mem h1, splitCh_of_not_mem h2]
  refine ⟨?_, by simp [Json.getKey, lookupKV_insertKV_self]⟩
  unfold RuntimeState.set
  rw [hun, hsplit, hroot]
  simp [habs]

theorem set_fresh_two_inside (s : RuntimeState) (kvs skvs : List (String × Json))
    (path : String) (v : Json) (seg1 seg2 : List Char)
    (hroot : s.data = Json.obj kvs)
    (hun : s.data.setPointer path v = none)
    (hd : path.data = '/' :: (seg1 ++ '/' :: seg2))
    (h1 : '/' ∉ seg1) (h2 : '/' ∉ seg2)
    (hsec : lookupKV kvs (String.mk seg1) = some (Json.obj skvs)) :
    s.set path v
        = .ok ⟨Json.obj (updateKV kvs (String.mk seg1)
            (Json.obj (insertKV skvs (String.mk seg2) v)))⟩ ∧
    (Json.obj (updateKV kvs (String.mk seg1)
        (Json.obj (insertKV skvs (String.mk seg2) v)))).getKey (String.mk seg1)
      = some (Json.obj (insertKV skvs (String.mk seg2) v)) ∧
    (Json.obj (insertKV skvs (String.mk seg2) v)).getKey (String.mk seg2) = some v := by
  have hsplit : splitCh '/' path.data = [[], seg1, seg2] := by
    rw [hd, splitCh_cons_self, splitCh_append_of_not_mem h1, splitCh_of_not_mem h2]
  refine ⟨?_, by simp [Json.getKey, lookupKV_updateKV_self hsec],
    by simp [Json.getKey, lookupKV_insertKV_self]⟩
  unfold RuntimeState.set
  rw [hun, hsplit, hroot]
  simp [hsec]

theorem set_fresh_deep (s : RuntimeState) (path : String) (v : Json)
    (hun : s.data.setPointer path v = none)
    (hlen2 : (splitCh '/' path.data).length ≠ 2)
    (hlen3 : (splitCh '/' path.data).length ≠ 3) :
    s.set path v = .error (.cannotSetPath path) := by
  unfold RuntimeState.set
  rw [hun]
  cases hs : splitCh '/' path.data with
  | nil => simp
  | cons a l =>
      cases l with
      | nil => simp
      | cons b l2 =>
          cases l2 with
          | nil => rw [hs] at hlen2; simp at hlen2
          | cons c l3 =>
              cases l3 with
              | nil => rw [hs] at hlen3; simp at hlen3
              | cons e l4 => simp

theorem set_root_slash_fails (s : RuntimeState) (v : Json)
    (hun : s.data.setPointer "/" v = none) :
    s.set "/" v = .error (.cannotSetPath "/") := by
  unfold RuntimeState.set
  rw [hun, show splitCh '/' ("/" : String).data = [[], []] from rfl]
  simp

theorem exec_divide_b_zero (s : RuntimeState) (a b : String)
    (h : get_f64 s b = .ok 0) :
    Runtime.exec_op (.divide a b) s = .error .divisionByZero := by
  simp only [Runtime.exec_op]
  rw [h]
  simp

theorem exec_divide_b_err (s : RuntimeState) (a b : String) (e : MetaError)
    (h : get_f64 s b = .error e) :
    Runtime.exec_op (.divide a b) s = .error e := by
  simp only [Runtime.exec_op]
  rw [h]

theorem exec_divide_a_err (s : RuntimeState) (a b : String) (q : ℚ) (e : MetaError)
    (hb : get_f64 s b = .ok q) (hq : q ≠ 0) (ha : get_f64 s a = .error e) :
    Runtime.exec_op (.divide a b) s = .error e := by
  simp only [Runtime.exec_op]
  rw [hb]
  simp [hq, ha]

theorem exec_divide_ok (s : RuntimeState) (a b : String) (q qa : ℚ)
    (hb : get_f64 s b = .ok q) (hq : q ≠ 0) (ha : get_f64 s a = .ok qa) :
    Runtime.exec_op (.divide a b) s = .ok (Json.num (qa / q)) := by
  simp only [Runtime.exec_op]
  rw [hb]
  simp [hq, ha]

theorem exec_calculate_eq (s : RuntimeState) (lp outf : String) (oper : MathOp)
    (af bf : String) (arr : List Json) (h : get_array s lp = .ok arr) :
    Runtime.exec_op (.calculate lp outf oper af bf) s
      = .ok (Json.arr (arr.map (calcElem s outf oper af bf))) := by
  simp only [Runtime.exec_op]
  rw [h]

theorem calcElem_divide_zero (s : RuntimeState) (outf af bf : String)
    (kvs : List (String × Json)) (hz : resolveOperand s kvs bf = 0) :
    (calcElem s outf .divide af bf (Json.obj kvs)).getKey outf
      = some (Json.num 0) := by
  simp only [calcElem]
  rw [hz]
  simp [mathOpApply, Json.getKey, lookupKV_insertKV_self]

theorem runSteps_append (pre post : List LogicStep) (s : RuntimeState) :
    Runtime.runSteps (pre ++ post) s =
      match Runtime.runSteps pre s with
      | .error e => .error e
      | .ok s2 => Runtime.runSteps post s2 := by
  induction pre generalizing s with
  | nil => simp [Runtime.runSteps]
  | cons st rest ih =>
      simp only [List.cons_append, Runtime.runSteps]
      cases h : Runtime.runStep st s with
      | error e => simp
      | ok s2 => simp [ih s2]

/-! ## Claim theorems -/

/-- **C1.** For every state and every path, `get` resolves in this order:
(a) the path against the whole document exactly; (b) if that fails and the
path is non-empty, the same path retried under the `inputs` section;
(c) otherwise PathNotFound carrying the document's root keys and, when
`inputs` is an object, its keys — this is exactly `specGet`.  Moreover, if
`x` is a key of the `inputs` object and no root key `x` exists,
`get("/inputs/x")` and `get("/x")` return the same value. -/
theorem C1_get_resolution_order :
    (∀ (s : RuntimeState) (path : String), s.get path = specGet s.data path) ∧
    (∀ (s : RuntimeState) (kvs ikvs : List (String × Json)) (x : String) (v : Json),
      s.data = Json.obj kvs →
      lookupKV kvs "inputs" = some (Json.obj ikvs) →
      lookupKV ikvs x = some v →
      lookupKV kvs x = none →
      tokenClean x →
      s.get ("/inputs/" ++ x) = .ok v ∧ s.get ("/" ++ x) = .ok v) :=
  ⟨get_eq_specGet, get_input_root_coincide⟩

/-- **C2 (counterexample).** The claim says every previously-unresolved
single-segment path creates or overwrites a root key.  The path `"/"`
consists of exactly one (empty) reference token, does not resolve on a
fresh state, yet `set` fails with InvalidWritePath instead of creating the
root key `""`. -/
theorem C2_counterexample :
    (RuntimeState.new (Json.obj [])).data.pointer "/" = none ∧
    (RuntimeState.new (Json.obj [])).data.setPointer "/" (Json.num 5) = none ∧
    (RuntimeState.new (Json.obj [])).set "/" (Json.num 5)
      = .error (.cannotSetPath "/") :=
  ⟨rfl, rfl, rfl⟩

/-- **C2 (amended).** For every state, `set(path, value)` replaces the
value in place when the path already resolves (in particular the empty
path names the whole document, so it always resolves and is replaced
wholesale).  For a previously-unresolved pointer path on an object root:
a single-segment path with a nonempty segment creates or overwrites that
root key; the path `"/"` (one empty segment) fails with InvalidWritePath;
a two-segment path auto-creates the intermediate section object when the
section key is absent, inserts the leaf inside the section when the
section is an object, and a path whose split has any other shape (three
or more segments) fails with InvalidWritePath.  The concrete examples
hold: on a fresh state `set("/a", v)` then `get("/a")` returns `v`;
`set("/a/b", v)` creates `{"a":{"b":v}}` alongside `inputs`/`temp` and
`get("/a/b")` returns `v`; `set("/a/b/c", v)` fails with
InvalidWritePath. -/
theorem C2_set_write_rules :
    (∀ (s : RuntimeState) (path : String) (w v : Json),
      s.data.pointer path = some w →
      ∃ d', s.set path v = .ok ⟨d'⟩ ∧ d'.pointer path = some v) ∧
    (∀ (s : RuntimeState) (v : Json), s.set "" v = .ok ⟨v⟩) ∧
    (∀ (s : RuntimeState) (kvs : List (String × Json)) (path : String) (v : Json)
        (seg : List Char),
      s.data = Json.obj kvs → s.data.setPointer path v = none →
      path.data = '/' :: seg → '/' ∉ seg → seg ≠ [] →
      s.set path v = .ok ⟨Json.obj (insertKV kvs (String.mk seg) v)⟩ ∧
      (Json.obj (insertKV kvs (String.mk seg) v)).getKey (String.mk seg) = some v) ∧
    (∀ (s : RuntimeState) (v : Json),
      s.data.setPointer "/" v = none →
      s.set "/" v = .error (.cannotSetPath "/")) ∧
    (∀ (s : RuntimeState) (kvs : List (String × Json)) (path : String) (v : Json)
        (seg1 seg2 : List Char),
      s.data = Json.obj kvs → s.data.setPointer path v = none →
      path.data = '/' :: (seg1 ++ '/' :: seg2) → '/' ∉ seg1 → '/' ∉ seg2 →
      lookupKV kvs (String.mk seg1) = none →
      s.set path v
          = .ok ⟨Json.obj (insertKV kvs (String.mk seg1)
              (Json.obj [(String.mk seg2, v)]))⟩ ∧
      (Json.obj (insertKV kvs (String.mk seg1)
          (Json.obj [(String.mk seg2, v)]))).getKey (String.mk seg1)
        = some (Json.obj [(String.mk seg2, v)])) ∧
    (∀ (s : RuntimeState) (kvs skvs : List (String × Json)) (path : String)
        (v : Json) (seg1 seg2 : List Char),
      s.data = Json.obj kvs → s.data.setPointer path v = none →
      path.data = '/' :: (seg1 ++ '/' :: seg2) → '/' ∉ seg1 → '/' ∉ seg2 →
      lookupKV kvs (String.mk seg1) = some (Json.obj skvs) →
      s.set path v
          = .ok ⟨Json.obj (updateKV kvs (String.mk seg1)
              (Json.obj (insertKV skvs (String.mk seg2) v)))⟩ ∧
      (Json.obj (updateKV kvs (String.mk seg1)
          (Json.obj (insertKV skvs (String.mk seg2) v)))).getKey (String.mk seg1)
        = some (Json.obj (insertKV skvs (String.mk seg2) v)) ∧
      (Json.obj (insertKV skvs (String.mk seg2) v)).getKey (String.mk seg2)
        = some v) ∧
    (∀ (s : RuntimeState) (path : String) (v : Json),
      s.data.setPointer path v = none →
      (splitCh '/' path.data).length ≠ 2 → (splitCh '/' path.data).length ≠ 3 →
      s.set path v = .error (.cannotSetPath path)) ∧
    (∀ (inputs v : Json),
      ((RuntimeState.new inputs).set "/a" v).bind (fun s2 => s2.get "/a") = .ok v) ∧
    (∀ (inputs v : Json),
      (RuntimeState.new inputs).set "/a/b" v
          = .ok ⟨Json.obj [("inputs", inputs), ("temp", Json.obj []),
              ("a", Json.obj [("b", v)])]⟩ ∧
      ((RuntimeState.new inputs).set "/a/b" v).bind (fun s2 => s2.get "/a/b")
          = .ok v) ∧
    (∀ (inputs v : Json),
      (RuntimeState.new inputs).set "/a/b/c" v
          = .error (.cannotSetPath "/a/b/c")) :=
  ⟨set_of_resolvable, set_empty, set_fresh_single, set_root_slash_fails,
    set_fresh_two_create, set_fresh_two_inside, set_fresh_deep,
    fun _ _ => rfl, fun _ _ => ⟨rfl, rfl⟩, fun _ _ => rfl⟩

/-- Witness for C2: the in-place-replacement and root-create clauses at a
concrete state. -/
theorem C2_witness :
    (∃ d', (RuntimeState.new (Json.obj [("k", Json.num 1)])).set "/inputs/k" (Json.num 2)
        = .ok ⟨d'⟩ ∧ d'.pointer "/inputs/k" = some (Json.num 2)) ∧
    ((RuntimeState.new (Json.obj [])).set "/out" (Json.num 3)
        = .ok ⟨Json.obj (insertKV [("inputs", Json.obj []), ("temp", Json.obj [])]
            (String.mk ['o', 'u', 't']) (Json.num 3))⟩ ∧
      (Json.obj (insertKV [("inputs", Json.obj []), ("temp", Json.obj [])]
          (String.mk ['o', 'u', 't']) (Json.num 3))).getKey (String.mk ['o', 'u', 't'])
        = some (Json.num 3)) :=
  ⟨C2_set_write_rules.1 (RuntimeState.new (Json.obj [("k", Json.num 1)]))
      "/inputs/k" (Json.num 1) (Json.num 2) rfl,
    C2_set_write_rules.2.2.1 (RuntimeState.new (Json.obj []))
      [("inputs", Json.obj []), ("temp", Json.obj [])] "/out" (Json.num 3)
      ['o', 'u', 't'] rfl rfl rfl (by decide) (by decide)⟩

/-- **C3.** The scalar Divide fails with DivisionByZero whenever the
resolved denominator is exactly 0, while the element-wise Calculate with
the divide operator succeeds and yields 0 for every object element whose
resolved divisor is 0. -/
theorem C3_divide_vs_calculate_zero :
    (∀ (s : RuntimeState) (a b : String),
      get_f64 s b = .ok 0 →
      Runtime.exec_op (.divide a b) s = .error .divisionByZero) ∧
    (∀ (s : RuntimeState) (lp outf af bf : String) (arr : List Json),
      get_array s lp = .ok arr →
      Runtime.exec_op (.calculate lp outf .divide af bf) s
          = .ok (Json.arr (arr.map (calcElem s outf .divide af bf))) ∧
      ∀ kvs : List (String × Json), resolveOperand s kvs bf = 0 →
        (calcElem s outf .divide af bf (Json.obj kvs)).getKey outf
          = some (Json.num 0)) :=
  ⟨exec_divide_b_zero,
    fun s lp outf af bf arr h =>
      ⟨exec_calculate_eq s lp outf .divide af bf arr h,
       fun kvs hz => calcElem_divide_zero s outf af bf kvs hz⟩⟩

/-- Witness for C3: a state whose `inputs` hold a zero denominator and a
one-element list with a zero divisor field. -/
theorem C3_witness :
    Runtime.exec_op (.divide "/inputs/a" "/inputs/z")
        (RuntimeState.new (Json.obj [("a", Json.num 4), ("z", Json.num 0),
          ("xs", Json.arr [Json.obj [("d", Json.num 0)]])]))
      = .error .divisionByZero ∧
    Runtime.exec_op (.calculate "/inputs/xs" "out" .divide "a" "d")
        (RuntimeState.new (Json.obj [("a", Json.num 4), ("z", Json.num 0),
          ("xs", Json.arr [Json.obj [("d", Json.num 0)]])]))
      = .ok (Json.arr ([Json.obj [("d", Json.num 0)]].map
          (calcElem (RuntimeState.new (Json.obj [("a", Json.num 4), ("z", Json.num 0),
            ("xs", Json.arr [Json.obj [("d", Json.num 0)]])])) "out" .divide "a" "d"))) :=
  ⟨C3_divide_vs_calculate_zero.1 _ "/inputs/a" "/inputs/z" rfl,
    (C3_divide_vs_calculate_zero.2
      (RuntimeState.new (Json.obj [("a", Json.num 4), ("z", Json.num 0),
        ("xs", Json.arr [Json.obj [("d", Json.num 0)]])]))
      "/inputs/xs" "out" "a" "d" [Json.obj [("d", Json.num 0)]] rfl).1⟩

/-- **C10.** The scalar Divide resolves and checks the denominator before
the numerator: a zero denominator yields DivisionByZero with no condition
on the numerator path; a denominator resolution error propagates
untouched; the numerator's errors surface only once the denominator has
resolved to a non-zero number, in which case a resolvable numerator gives
the quotient. -/
theorem C10_divide_resolution_order :
    (∀ (s : RuntimeState) (a b : String),
      get_f64 s b = .ok 0 →
      Runtime.exec_op (.divide a b) s = .error .divisionByZero) ∧
    (∀ (s : RuntimeState) (a b : String) (e : MetaError),
      get_f64 s b = .error e →
      Runtime.exec_op (.divide a b) s = .error e) ∧
    (∀ (s : RuntimeState) (a b : String) (q : ℚ) (e : MetaError),
      get_f64 s b = .ok q → q ≠ 0 → get_f64 s a = .error e →
      Runtime.exec_op (.divide a b) s = .error e) ∧
    (∀ (s : RuntimeState) (a b : String) (q qa : ℚ),
      get_f64 s b = .ok q → q ≠ 0 → get_f64 s a = .ok qa →
      Runtime.exec_op (.divide a b) s = .ok (Json.num (qa / q))) :=
  ⟨exec_divide_b_zero, exec_divide_b_err, exec_divide_a_err, exec_divide_ok⟩

/-- Witness for C10: with a zero denominator the numerator path is absent
and non-numeric paths are irrelevant — Divide still reports
DivisionByZero. -/
theorem C10_witness :
    Runtime.exec_op (.divide "/no/such/path" "/inputs/z")
        (RuntimeState.new (Json.obj [("z", Json.num 0), ("t", Json.str "x")]))
      = .error .divisionByZero ∧
    Runtime.exec_op (.divide "/inputs/t" "/inputs/z")
        (RuntimeState.new (Json.obj [("z", Json.num 0), ("t", Json.str "x")]))
      = .error .divisionByZero :=
  ⟨C10_divide_resolution_order.1 _ "/no/such/path" "/inputs/z" rfl,
    C10_divide_resolution_order.1 _ "/inputs/t" "/inputs/z" rfl⟩

/-- **C4 (counterexample).** The Min/Max folds do use the infinities as
identities, but `json!` cannot represent a non-finite `f64`:
`Number::from_f64` yields `None` and the macro falls back to `Value::Null`.
On an empty array the step therefore returns JSON null, not a +infinity
or −infinity value. -/
theorem C4_counterexample :
    (([] : List Json).filterMap (fieldNum none)).foldl XNum.minStep XNum.posInf
        = XNum.posInf ∧
    (([] : List Json).filterMap (fieldNum none)).foldl XNum.maxStep XNum.negInf
        = XNum.negInf ∧
    Json.ofXNum XNum.posInf = Json.null ∧
    Json.ofXNum XNum.negInf = Json.null ∧
    Runtime.exec_op (.min "/inputs/xs" none)
        (RuntimeState.new (Json.obj [("xs", Json.arr [])])) = .ok Json.null ∧
    Runtime.exec_op (.max "/inputs/xs" none)
        (RuntimeState.new (Json.obj [("xs", Json.arr [])])) = .ok Json.null :=
  ⟨rfl, rfl, rfl, rfl, rfl, rfl⟩

/-- **C4 (amended).** For every state in which `list_path` resolves to an
empty array, the Min and Max reductions start from the identities
+infinity and −infinity respectively, and since the JSON number type holds
only finite values, the operation's result is serialized as JSON null. -/
theorem C4_min_max_empty :
    ∀ (s : RuntimeState) (lp : String) (field : Option String),
      get_array s lp = .ok [] →
      Runtime.exec_op (.min lp field) s = .ok Json.null ∧
      Runtime.exec_op (.max lp field) s = .ok Json.null := by
  intro s lp field h
  constructor <;> (simp only [Runtime.exec_op]; rw [h]; rfl)

/-- Witness for C4 at a concrete empty-array state. -/
theorem C4_witness :
    Runtime.exec_op (.min "/inputs/empty" (some "f"))
        (RuntimeState.new (Json.obj [("empty", Json.arr [])])) = .ok Json.null ∧
    Runtime.exec_op (.max "/inputs/empty" (some "f"))
        (RuntimeState.new (Json.obj [("empty", Json.arr [])])) = .ok Json.null :=
  C4_min_max_empty (RuntimeState.new (Json.obj [("empty", Json.arr [])]))
    "/inputs/empty" (some "f") rfl

/-- **C5.** `execute` seeds the state with the document
`{"inputs": inputs, "temp": {}}`, runs the steps strictly in program
order, and the first failing step's error is returned unchanged no matter
what steps follow; the writes of the earlier steps had already been
applied to the state the failing step saw, and nothing re-runs. -/
theorem C5_execute_seeding_and_abort :
    (∀ inputs : Json,
      (RuntimeState.new inputs).data
        = Json.obj [("inputs", inputs), ("temp", Json.obj [])]) ∧
    (∀ (st : LogicStep) (rest : List LogicStep) (s : RuntimeState) (e : MetaError),
      Runtime.runStep st s = .error e →
      Runtime.runSteps (st :: rest) s = .error e) ∧
    (∀ (df : AppDefinition) (pre : List LogicStep) (st : LogicStep)
        (post : List LogicStep) (inputs : Json) (d : RuntimeState) (e : MetaError),
      Runtime.runSteps pre (RuntimeState.new inputs) = .ok d →
      Runtime.runStep st d = .error e →
      Runtime.execute ⟨df, pre ++ st :: post⟩ inputs = .error e) := by
  refine ⟨fun _ => rfl, ?_, ?_⟩
  · intro st rest s e h
    simp only [Runtime.runSteps]
    rw [h]
  · intro df pre st post inputs d e hpre hst
    unfold Runtime.execute
    simp only
    rw [runSteps_append, hpre]
    simp only [Runtime.runSteps]
    rw [hst]

/-- Witness for C5: a two-step program whose second step divides by zero;
the first step's write is applied, the third step never matters. -/
theorem C5_witness :
    Runtime.execute
        ⟨⟨"p", "", Json.null, Json.null⟩,
          [⟨"s1", "", .constant (.number 1), "/a"⟩] ++
            ⟨"s2", "", .divide "/a" "/z", "/b"⟩ ::
              [⟨"s3", "", .constant (.number 2), "/c"⟩]⟩
        (Json.obj [("z", Json.num 0)])
      = .error .divisionByZero :=
  C5_execute_seeding_and_abort.2.2 ⟨"p", "", Json.null, Json.null⟩
    [⟨"s1", "", .constant (.number 1), "/a"⟩]
    ⟨"s2", "", .divide "/a" "/z", "/b"⟩
    [⟨"s3", "", .constant (.number 2), "/c"⟩]
    (Json.obj [("z", Json.num 0)])
    ⟨Json.obj [("inputs", Json.obj [("z", Json.num 0)]), ("temp", Json.obj []),
      ("a", Json.num 1)]⟩
    .divisionByZero rfl rfl

/-- **C7.** Evaluating a step's operation is a pure function of the
current state — `exec_op` takes the state by value and returns only a
result — and the sole state change a successful step makes is the single
`set` of that result at its output path; the step loop threads the updated
state to the next step. -/
theorem C7_step_purity_frame :
    (∀ (st : LogicStep) (s s' : RuntimeState),
      Runtime.runStep st s = .ok s' →
      ∃ v, Runtime.exec_op st.operation s = .ok v ∧
        s.set st.output_path v = .ok s') ∧
    (∀ (st : LogicStep) (rest : List LogicStep) (s : RuntimeState),
      Runtime.runSteps (st :: rest) s =
        match Runtime.runStep st s with
        | .error e => .error e
        | .ok s2 => Runtime.runSteps rest s2) := by
  refine ⟨?_, fun _ _ _ => rfl⟩
  intro st s s' h
  unfold Runtime.runStep at h
  cases he : Runtime.exec_op st.operation s with
  | error e => rw [he] at h; exact Except.noConfusion h
  | ok v => rw [he] at h; exact ⟨v, rfl, h⟩

/-- Witness for C7: the decomposition of a concrete successful step. -/
theorem C7_witness :
    ∃ v, Runtime.exec_op (LogicStep.mk "s1" "" (.constant (.number 1)) "/out").operation
        (RuntimeState.new (Json.obj [])) = .ok v ∧
      (RuntimeState.new (Json.obj [])).set
          (LogicStep.mk "s1" "" (.constant (.number 1)) "/out").output_path v
        = .ok ⟨Json.obj [("inputs", Json.obj []), ("temp", Json.obj []),
            ("out", Json.num 1)]⟩ :=
  C7_step_purity_frame.1 ⟨"s1", "", .constant (.number 1), "/out"⟩
    (RuntimeState.new (Json.obj []))
    ⟨Json.obj [("inputs", Json.obj []), ("temp", Json.obj []), ("out", Json.num 1)]⟩
    rfl

/-- **C6.** When all steps succeed, `execute` returns the output
extraction of the final document and never fails: with a `properties`
object present, at least one matched name yields exactly the collected
match map (all other document content dropped), no matched name yields the
whole document, and an absent or non-object `properties` value yields the
whole document. -/
theorem C6_extraction :
    (∀ (p : AppProgram) (inputs : Json) (s : RuntimeState),
      Runtime.runSteps p.steps (RuntimeState.new inputs) = .ok s →
      Runtime.execute p inputs
        = .ok (extractOutput p.definition.output_schema s.data)) ∧
    (∀ (schema d : Json) (props : List (String × Json)),
      schema.getKey "properties" = some (Json.obj props) →
      (matchedEntries props d = [] → extractOutput schema d = d) ∧
      (matchedEntries props d ≠ [] →
        extractOutput schema d = Json.obj (matchedEntries props d))) ∧
    (∀ (schema d : Json),
      (∀ props : List (String × Json),
        schema.getKey "properties" ≠ some (Json.obj props)) →
      extractOutput schema d = d) := by
  refine ⟨?_, ?_, ?_⟩
  · intro p inputs s h
    unfold Runtime.execute
    rw [h]
  · intro schema d props hp
    unfold extractOutput
    rw [hp]
    constructor
    · intro he
      simp [he]
    · intro hne
      simp [List.isEmpty_iff, hne]
  · intro schema d hnp
    unfold extractOutput
    cases hg : schema.getKey "properties" with
    | none => rfl
    | some v =>
        cases v with
        | obj props => exact absurd hg (hnp props)
        | null => rfl
        | bool b => rfl
        | num q => rfl
        | str s => rfl
        | arr xs => rfl

/-- Witness for C6: a one-step program that copies an input to `/total`
with `output_schema.properties = total` returns the extraction of the
final document (the singleton `total` map). -/
theorem C6_witness :
    Runtime.execute
        ⟨⟨"p", "", Json.null,
            Json.obj [("properties", Json.obj [("total", Json.obj [])])]⟩,
          [⟨"s1", "", .get "/inputs/t", "/total"⟩]⟩
        (Json.obj [("t", Json.num 15)])
      = .ok (extractOutput
          (Json.obj [("properties", Json.obj [("total", Json.obj [])])])
          (Json.obj [("inputs", Json.obj [("t", Json.num 15)]),
            ("temp", Json.obj []), ("total", Json.num 15)])) :=
  C6_extraction.1
    ⟨⟨"p", "", Json.null,
        Json.obj [("properties", Json.obj [("total", Json.obj [])])]⟩,
      [⟨"s1", "", .get "/inputs/t", "/total"⟩]⟩
    (Json.obj [("t", Json.num 15)])
    ⟨Json.obj [("inputs", Json.obj [("t", Json.num 15)]),
      ("temp", Json.obj []), ("total", Json.num 15)]⟩
    rfl

/-- **C8.** When `list_path` resolves to an array, Sort returns a stable
ascending sort of the array by the named field's numeric key (0 when the
field is missing or non-numeric) and the reverse of that list when
`descending`: the output is a permutation of the input, pairwise ordered
by the key, and any key-ordered pair of the input keeps its relative order
(stability); the `[3,1,2]` example sorts to `[1,2,3]` ascending and
`[3,2,1]` descending. -/
theorem C8_sort_stable :
    (∀ (s : RuntimeState) (lp f : String) (arr : List Json),
      get_array s lp = .ok arr →
      Runtime.exec_op (.sort lp f false) s
          = .ok (Json.arr (arr.mergeSort fun a b =>
              decide (sortKey f a ≤ sortKey f b))) ∧
      Runtime.exec_op (.sort lp f true) s
          = .ok (Json.arr (arr.mergeSort fun a b =>
              decide (sortKey f a ≤ sortKey f b)).reverse) ∧
      (arr.mergeSort fun a b => decide (sortKey f a ≤ sortKey f b)).Perm arr ∧
      (arr.mergeSort fun a b => decide (sortKey f a ≤ sortKey f b)).Pairwise
        (fun a b => sortKey f a ≤ sortKey f b) ∧
      (∀ a b : Json, List.Sublist [a, b] arr → sortKey f a ≤ sortKey f b →
        List.Sublist [a, b]
          (arr.mergeSort fun a b => decide (sortKey f a ≤ sortKey f b)))) ∧
    (Runtime.exec_op (.sort "/inputs/xs" "f" false)
        (RuntimeState.new (Json.obj [("xs", Json.arr
          [Json.obj [("f", Json.num 3)], Json.obj [("f", Json.num 1)],
            Json.obj [("f", Json.num 2)]])]))
      = .ok (Json.arr [Json.obj [("f", Json.num 1)], Json.obj [("f", Json.num 2)],
          Json.obj [("f", Json.num 3)]])) ∧
    (Runtime.exec_op (.sort "/inputs/xs" "f" true)
        (RuntimeState.new (Json.obj [("xs", Json.arr
          [Json.obj [("f", Json.num 3)], Json.obj [("f", Json.num 1)],
            Json.obj [("f", Json.num 2)]])]))
      = .ok (Json.arr [Json.obj [("f", Json.num 3)], Json.obj [("f", Json.num 2)],
          Json.obj [("f", Json.num 1)]])) := by
  have htr : ∀ a b c : Json,
      decide (sortKey "f" a ≤ sortKey "f" b) = true →
      decide (sortKey "f" b ≤ sortKey "f" c) = true →
      decide (sortKey "f" a ≤ sortKey "f" c) = true := by
    intro a b c hab hbc
    simp only [decide_eq_true_eq] at *
    exact le_trans hab hbc
  refine ⟨?_, ?_, ?_⟩
  · intro s lp f arr h
    have htrf : ∀ a b c : Json,
        decide (sortKey f a ≤ sortKey f b) = true →
        decide (sortKey f b ≤ sortKey f c) = true →
        decide (sortKey f a ≤ sortKey f c) = true := by
      intro a b c hab hbc
      simp only [decide_eq_true_eq] at *
      exact le_trans hab hbc
    have htof : ∀ a b : Json,
        (decide (sortKey f a ≤ sortKey f b)
          || decide (sortKey f b ≤ sortKey f a)) = true := by
      intro a b
      simp only [Bool.or_eq_true, decide_eq_true_eq]
      exact le_total _ _
    refine ⟨?_, ?_, List.mergeSort_perm arr _, ?_, ?_⟩
    · simp only [Runtime.exec_op]
      rw [h]
      rfl
    · simp only [Runtime.exec_op]
      rw [h]
      rfl
    · exact (List.sorted_mergeSort htrf htof arr).imp fun hab => by simpa using hab
    · intro a b hsub hle
      exact List.pair_sublist_mergeSort htrf htof (by simpa using hle) hsub
  · rw [show Runtime.exec_op (.sort "/inputs/xs" "f" false)
        (RuntimeState.new (Json.obj [("xs", Json.arr
          [Json.obj [("f", Json.num 3)], Json.obj [("f", Json.num 1)],
            Json.obj [("f", Json.num 2)]])]))
      = .ok (Json.arr ([Json.obj [("f", Json.num 3)], Json.obj [("f", Json.num 1)],
          Json.obj [("f", Json.num 2)]].mergeSort fun a b =>
            decide (sortKey "f" a ≤ sortKey "f" b))) from rfl]
    norm_num [List.mergeSort, List.merge, sortKey, Json.getKey, lookupKV, Json.asNum]
  · rw [show Runtime.exec_op (.sort "/inputs/xs" "f" true)
        (RuntimeState.new (Json.obj [("xs", Json.arr
          [Json.obj [("f", Json.num 3)], Json.obj [("f", Json.num 1)],
            Json.obj [("f", Json.num 2)]])]))
      = .ok (Json.arr ([Json.obj [("f", Json.num 3)], Json.obj [("f", Json.num 1)],
          Json.obj [("f", Json.num 2)]].mergeSort fun a b =>
            decide (sortKey "f" a ≤ sortKey "f" b)).reverse) from rfl]
    norm_num [List.mergeSort, List.merge, sortKey, Json.getKey, lookupKV, Json.asNum]

/-- Witness for C8: the general clause applied to a concrete two-element
array state. -/
theorem C8_witness :
    Runtime.exec_op (.sort "/inputs/ys" "g" false)
        (RuntimeState.new (Json.obj [("ys", Json.arr
          [Json.obj [("g", Json.num 2)], Json.obj [("g", Json.num 1)]])]))
      = .ok (Json.arr ([Json.obj [("g", Json.num 2)], Json.obj [("g", Json.num 1)]].mergeSort
          fun a b => decide (sortKey "g" a ≤ sortKey "g" b))) :=
  (C8_sort_stable.1
    (RuntimeState.new (Json.obj [("ys", Json.arr
      [Json.obj [("g", Json.num 2)], Json.obj [("g", Json.num 1)]])]))
    "/inputs/ys" "g"
    [Json.obj [("g", Json.num 2)], Json.obj [("g", Json.num 1)]] rfl).1

/-- **C9 (counterexample).** The claim reads: every literal occurrence of a
resolved variable's placeholder *in the template* is replaced by that
variable's value.  Take template `"\x7ba\x7d"`, variables `a` then `b`,
with `a` resolving to the text `"\x7bb\x7d"` and `b` resolving to `"X"`.
The template contains no occurrence of `b`'s placeholder (third conjunct:
replacing it in the template is the identity), so under the claim the
result is `a`'s value, the literal text `"\x7bb\x7d"`.  The code instead
substitutes sequentially through the working string and returns `"X"`. -/
theorem C9_counterexample :
    Runtime.exec_op (.formatString "{a}"
        [⟨"a", "/inputs/a"⟩, ⟨"b", "/inputs/b"⟩])
        (RuntimeState.new (Json.obj [("a", Json.str "{b}"), ("b", Json.str "X")]))
      = .ok (Json.str "X") ∧
    replaceSub (placeholder "b") ("X" : String).data ("{a}" : String).data
      = ("{a}" : String).data ∧
    (RuntimeState.new (Json.obj [("a", Json.str "{b}"),
        ("b", Json.str "X")])).get "/inputs/a" = .ok (Json.str "{b}") ∧
    (RuntimeState.new (Json.obj [("a", Json.str "{b}"),
        ("b", Json.str "X")])).get "/inputs/b" = .ok (Json.str "X") ∧
    ("{b}" : String) ≠ "X" :=
  ⟨rfl, rfl, rfl, rfl, by decide⟩

/-- **C9 (amended).** FormatString processes its variables sequentially in
list order over a working string that starts as the template: a variable
whose path does not resolve leaves the working string untouched (no
error), and one that resolves replaces every literal occurrence of its
placeholder in the *current working string* by the value's text form — so
for a single variable this is exactly substitution in the template, and
the spec's `Hello` examples hold. -/
theorem C9_format_string :
    (∀ (s : RuntimeState) (template key path : String) (e : MetaError),
      s.get path = .error e →
      Runtime.exec_op (.formatString template [⟨key, path⟩]) s
        = .ok (Json.str template)) ∧
    (∀ (s : RuntimeState) (template key path : String) (val : Json),
      s.get path = .ok val →
      Runtime.exec_op (.formatString template [⟨key, path⟩]) s
        = .ok (Json.str (String.mk
            (replaceSub (placeholder key) (renderValue val).data template.data)))) ∧
    (∀ (s : RuntimeState) (template : String) (var : FormatVariable)
        (vars : List FormatVariable),
      Runtime.exec_op (.formatString template (var :: vars)) s
        = Runtime.exec_op (.formatString (applyVar s template var) vars) s) ∧
    (Runtime.exec_op (.formatString "Hello {name}" [⟨"name", "/inputs/name"⟩])
        (RuntimeState.new (Json.obj [("name", Json.str "Ann")]))
      = .ok (Json.str "Hello Ann")) ∧
    (Runtime.exec_op (.formatString "Hello {name}" [⟨"name", "/inputs/name"⟩])
        (RuntimeState.new (Json.obj []))
      = .ok (Json.str "Hello {name}")) := by
  refine ⟨?_, ?_, fun _ _ _ _ => rfl, rfl, rfl⟩
  · intro s template key path e h
    simp only [Runtime.exec_op, List.foldl, applyVar]
    rw [h]
  · intro s template key path val h
    simp only [Runtime.exec_op, List.foldl, applyVar]
    rw [h]

/-- Witness for C9: the resolved-variable clause at a concrete state. -/
theorem C9_witness :
    Runtime.exec_op (.formatString "Hi {who}" [⟨"who", "/inputs/who"⟩])
        (RuntimeState.new (Json.obj [("who", Json.str "Bo")]))
      = .ok (Json.str (String.mk (replaceSub (placeholder "who")
          (renderValue (Json.str "Bo")).data ("Hi {who}" : String).data))) :=
  C9_format_string.2.1 (RuntimeState.new (Json.obj [("who", Json.str "Bo")]))
    "Hi {who}" "who" "/inputs/who" (Json.str "Bo") rfl

/-- Witness for C1: a concrete state where the fallback read coincides
with the absolute read. -/
theorem C1_witness :
    (RuntimeState.new (Json.obj [("x", Json.num 7)])).get ("/inputs/" ++ "x")
        = .ok (Json.num 7) ∧
    (RuntimeState.new (Json.obj [("x", Json.num 7)])).get ("/" ++ "x")
        = .ok (Json.num 7) :=
  C1_get_resolution_order.2 (RuntimeState.new (Json.obj [("x", Json.num 7)]))
    [("inputs", Json.obj [("x", Json.num 7)]), ("temp", Json.obj [])]
    [("x", Json.num 7)] "x" (Json.num 7) rfl rfl rfl rfl (by decide)

end MetaAI
